import Mathlib

/-!
Verification of `aioriak`'s convergent Set datatype
(`src/aioriak/datatypes/set.py`): the client-side staging state of an
observed-remove CRDT set.  The concrete class `Set` holds two staging
containers (`_adds`, `_removes`) next to the snapshot/context bookkeeping it
inherits from the `Datatype` base class; it validates element types, gates
removals on the presence of a causal context, and extracts a delta dict via
`to_op`.  The base class itself is not among the sources, so the few base
members the Set relies on (`value`, `_require_context`, construction) are
modelled from the specification and marked as such.

Python values are modelled by `PyObj`: strings, integers, `None`, and lists
of those (the code only ever distinguishes strings / iterables /
everything-else, and iterates one level deep).  Python `set`/`frozenset`
objects are modelled as duplicate-free lists (`PySet`); only membership is
meaningful, matching the unspecified iteration order of the source.
Exceptions are modelled with `Except`: each operation returns its outcome
paired with the state of the instance afterwards, and a raise returns the
state reached at the raise point.
-/

namespace Aioriak

/-- Scalar Python values the datatype distinguishes: strings, integers and
`None`.  These can appear as elements of a list object. -/
inductive PyScalar where
  | pstr (s : String)
  | pint (n : Int)
  | pnone
  deriving DecidableEq, Repr

/-- Python runtime value as far as `set.py` inspects one: a string, an
integer, `None`, or a list of scalar values.  The code only ever asks
`isinstance(x, str)`, `isinstance(x, Iterable)` and iterates one level
deep, so lists of scalars exhaust the distinctions it can make. -/
inductive PyObj where
  | pystr (s : String)
  | pyint (n : Int)
  | pylist (elems : List PyScalar)
  | pynone
  deriving DecidableEq, Repr

/-- View of a scalar as a Python object (a list's elements, once iterated,
are objects in their own right). -/
def PyScalar.toObj : PyScalar → PyObj
  | .pstr s => .pystr s
  | .pint n => .pyint n
  | .pnone => .pynone

/-- Test `isinstance(x, str)`. -/
def PyObj.isStr : PyObj → Bool
  | .pystr _ => true
  | _ => false

/-- Test `isinstance(x, collections.abc.Iterable)`: strings and lists are
iterable, integers and `None` are not. -/
def PyObj.isIterable : PyObj → Bool
  | .pystr _ => true
  | .pylist _ => true
  | _ => false

/-- Sequence of elements `for element in x` visits: a string yields its
characters as one-character strings, a list yields its elements;
non-iterables yield nothing here (iterating them raises in Python, and the
code under verification only iterates values `_check_type` accepted). -/
def PyObj.iterElems : PyObj → List PyObj
  | .pystr s => s.data.map (fun c => .pystr (String.mk [c]))
  | .pylist elems => elems.map PyScalar.toObj
  | _ => []

/-- Python `set`/`frozenset` of objects, modelled as its list of elements;
only membership is meaningful (iteration order of a Python set is
unspecified). -/
abbrev PySet := List PyObj

namespace PySet

/-- Call `s.add(x)` on a Python set: a no-op when `x` is already a member,
otherwise `x` becomes a member. -/
def addElem (s : PySet) (x : PyObj) : PySet :=
  if x ∈ s then s else s ++ [x]

/-- Python set union `a | b`. -/
def union (a b : PySet) : PySet :=
  a ++ b.filter (fun x => decide (x ∉ a))

theorem mem_addElem (s : PySet) (x y : PyObj) :
    y ∈ s.addElem x ↔ y ∈ s ∨ y = x := by
  unfold addElem
  split
  · constructor
    · exact Or.inl
    · rintro (hy | rfl)
      · exact hy
      · assumption
  · simp [List.mem_append]

theorem mem_addElem_self (s : PySet) (x : PyObj) : x ∈ s.addElem x :=
  (mem_addElem s x x).mpr (Or.inr rfl)

theorem addElem_of_mem {s : PySet} {x : PyObj} (h : x ∈ s) :
    s.addElem x = s := by
  unfold addElem
  simp [h]

theorem addElem_ne_nil (s : PySet) (x : PyObj) : s.addElem x ≠ [] :=
  List.ne_nil_of_mem (mem_addElem_self s x)

theorem union_length_pos_iff (a b : PySet) :
    (union a b).length > 0 ↔ (a ≠ [] ∨ b ≠ []) := by
  cases a with
  | nil =>
      have hfilter : List.filter (fun x => decide (x ∉ ([] : PySet))) b = b := by
        simp
      simp only [union, List.nil_append, hfilter, List.length_pos_iff_ne_nil]
      constructor
      · exact Or.inr
      · rintro (h | h)
        · exact absurd rfl h
        · exact h
  | cons x l =>
      simp [union, List.length_append]

end PySet

/-- Python `frozenset(v)` applied to an iterable `v`: the set of the
distinct elements `v` yields. -/
def pyFrozenset (v : PyObj) : PySet := v.iterElems.dedup

/-- Error kinds the datatype raises: `invalidElementType` models the
`TypeError` (carrying its message), `contextRequired` the `ContextRequired`
exception raised by the base class. -/
inductive DtError where
  | invalidElementType (msg : String)
  | contextRequired
  deriving DecidableEq, Repr

/-- State of one `Set` datatype instance: `_value` (the immutable snapshot)
and `context` live in the `Datatype` base class per the spec; `_adds` and
`_removes` are the staging containers `_post_init` creates. -/
structure Set where
  _value : PySet
  context : Option String
  _adds : PySet
  _removes : PySet
  deriving DecidableEq, Repr

namespace Set

/-- Message `Set._type_error_msg` of the source. -/
def _type_error_msg : String := "Sets can only be iterables of strings"

/-- Source `Set._default_value`: `frozenset()`. -/
def _default_value : PySet := []

/-- Modelled from the spec: the base `Datatype` constructor is not among the
sources.  Per the spec an instance is created with a snapshot (the
subtype's default, an empty value, before the first sync) and an optional
context, while `_post_init` (which is in the source) creates both staging
containers empty. -/
def new (value : PySet) (context : Option String) : Set :=
  { _value := value, context := context, _adds := [], _removes := [] }

/-- Modelled from the spec: the base class `value` property is not among the
sources; per the spec it returns the current immutable snapshot, a
read-only view that never includes staged mutations. -/
def value (st : Set) : PySet := st._value

/-- Modelled from the spec: `Datatype._require_context` is not among the
sources; per the spec it fails with a ContextRequired error if `context`
is absent and otherwise does nothing. -/
def _require_context (st : Set) : Except DtError Unit :=
  match st.context with
  | some _ => Except.ok ()
  | none => Except.error DtError.contextRequired

/-- Source `Set._check_element`: raises `TypeError(Set._type_error_msg)`
unless the element is a string. -/
def _check_element (element : PyObj) : Except DtError Unit :=
  if ¬ element.isStr then Except.error (DtError.invalidElementType _type_error_msg)
  else Except.ok ()

/-- Source `Set.add`: checks the element, then stages it in `_adds`.  The
result pairs the call's outcome with the instance's state afterwards; a
raise leaves the object as it was at the raise point, and no mutation
precedes the check. -/
def add (st : Set) (element : PyObj) : Except DtError Unit × Set :=
  match _check_element element with
  | Except.error e => (Except.error e, st)
  | Except.ok _ => (Except.ok (), { st with _adds := st._adds.addElem element })

/-- Source `Set.discard`: checks the element, then requires a context, then
stages the element in `_removes`.  No mutation precedes either check. -/
def discard (st : Set) (element : PyObj) : Except DtError Unit × Set :=
  match _check_element element with
  | Except.error e => (Except.error e, st)
  | Except.ok _ =>
      match st._require_context with
      | Except.error e => (Except.error e, st)
      | Except.ok _ => (Except.ok (), { st with _removes := st._removes.addElem element })

end Set

/-- Operation dictionary `to_op` builds: a dict with at most the keys
`adds` and `removes`; an absent key is `none`, a present key holds
`list(...)` of the corresponding staging container. -/
structure SetOp where
  adds : Option (List PyObj)
  removes : Option (List PyObj)
  deriving DecidableEq, Repr

namespace Set

/-- Source `Set.to_op`: `None` when both staging containers are falsy
(empty); otherwise the `changes` dict, which receives an `adds` key only
when `_adds` is non-empty and a `removes` key only when `_removes` is
non-empty. -/
def to_op (st : Set) : Option SetOp :=
  if st._adds.isEmpty && st._removes.isEmpty then none
  else some { adds := if st._adds.isEmpty then none else some st._adds,
              removes := if st._removes.isEmpty then none else some st._removes }

/-- Source `Set.modified` getter: `len(self._removes | self._adds) > 0`. -/
def modified (st : Set) : Bool := (PySet.union st._removes st._adds).length > 0

/-- Source `Set.__contains__`: `element in self.value`. -/
def contains (st : Set) (element : PyObj) : Bool := decide (element ∈ st.value)

/-- Source `Set.__iter__`: `iter(self.value)`, the snapshot's elements. -/
def iter (st : Set) : List PyObj := st.value

/-- Source `Set.__len__`: `len(self.value)`. -/
def length (st : Set) : Nat := st.value.length

/-- Source `Set._coerce_value`: `frozenset(new_value)`. -/
def _coerce_value (new_value : PyObj) : PySet := pyFrozenset new_value

/-- Loop of `_check_type` over the candidate's elements: `False` at the
first non-string element, `True` when the loop completes. -/
def checkTypeLoop : List PyObj → Bool
  | [] => true
  | element :: rest => if ¬ element.isStr then false else checkTypeLoop rest

/-- Source `Set._check_type`: `False` for a non-iterable, otherwise the
element loop over the candidate. -/
def _check_type (new_value : PyObj) : Bool :=
  if ¬ new_value.isIterable then false else checkTypeLoop new_value.iterElems

end Set

/-- One staging call an application can make against the instance: `add` or
`discard` of an element. -/
inductive MutCall where
  | addC (element : PyObj)
  | discardC (element : PyObj)
  deriving DecidableEq, Repr

/-- State of the instance after one call, whether the call succeeded or
raised (a raise leaves the instance in the state the outcome pair's second
component records). -/
def MutCall.apply (st : Set) : MutCall → Set
  | .addC e => (st.add e).2
  | .discardC e => (st.discard e).2

/-- State of the instance after a sequence of `add`/`discard` calls. -/
def Set.applyCalls (st : Set) (calls : List MutCall) : Set :=
  calls.foldl MutCall.apply st

namespace Set

theorem check_element_ok_iff (e : PyObj) :
    _check_element e = Except.ok () ↔ e.isStr = true := by
  unfold _check_element
  cases e <;> simp [PyObj.isStr]

theorem check_element_error {e : PyObj} (h : e.isStr = false) :
    _check_element e = Except.error (DtError.invalidElementType _type_error_msg) := by
  unfold _check_element
  simp [h]

theorem add_of_str (st : Set) (s : String) :
    st.add (PyObj.pystr s)
      = (Except.ok (), { st with _adds := st._adds.addElem (PyObj.pystr s) }) := rfl

theorem add_frame (st : Set) (e : PyObj) :
    (st.add e).2._value = st._value ∧ (st.add e).2.context = st.context ∧
    (st.add e).2._removes = st._removes := by
  unfold add
  cases h : _check_element e <;> simp

theorem discard_frame (st : Set) (e : PyObj) :
    (st.discard e).2._value = st._value ∧ (st.discard e).2.context = st.context ∧
    (st.discard e).2._adds = st._adds := by
  unfold discard
  cases h : _check_element e
  · simp
  · cases h2 : st._require_context <;> simp

theorem applyCalls_cons (st : Set) (c : MutCall) (cs : List MutCall) :
    st.applyCalls (c :: cs) = (MutCall.apply st c).applyCalls cs := rfl

theorem apply_value (st : Set) (c : MutCall) :
    (MutCall.apply st c)._value = st._value := by
  cases c with
  | addC e => exact (add_frame st e).1
  | discardC e => exact (discard_frame st e).1

theorem applyCalls_value (calls : List MutCall) :
    ∀ st : Set, (st.applyCalls calls)._value = st._value := by
  induction calls with
  | nil => intro st; rfl
  | cons c cs ih =>
      intro st
      rw [applyCalls_cons, ih, apply_value]

theorem to_op_eq_none_iff (st : Set) :
    st.to_op = none ↔ (st._adds = [] ∧ st._removes = []) := by
  unfold to_op
  split
  · simp_all [List.isEmpty_iff]
  · simp_all [List.isEmpty_iff]

theorem to_op_some_eq {st : Set} {op : SetOp} (h : st.to_op = some op) :
    op = { adds := if st._adds.isEmpty then none else some st._adds,
           removes := if st._removes.isEmpty then none else some st._removes } := by
  unfold to_op at h
  split at h
  · cases h
  · exact (Option.some.inj h).symm

theorem checkTypeLoop_eq_true (l : List PyObj) :
    checkTypeLoop l = true ↔ ∀ x ∈ l, x.isStr = true := by
  induction l with
  | nil => simp [checkTypeLoop]
  | cons x xs ih =>
      by_cases hx : x.isStr = true
      · simp [checkTypeLoop, hx, ih]
      · simp [checkTypeLoop, hx]

/-- Successful `add` mutates only `_adds`, by inserting the element. -/
theorem add_ok {st st' : Set} {e : PyObj} (h : st.add e = (Except.ok (), st')) :
    st' = { st with _adds := st._adds.addElem e } := by
  unfold add at h
  cases hc : _check_element e with
  | error err => rw [hc] at h; cases h
  | ok u => rw [hc] at h; exact (Prod.mk.injEq _ _ _ _ ▸ h).2.symm

/-- Successful `discard` mutates only `_removes`, by inserting the element. -/
theorem discard_ok {st st' : Set} {e : PyObj} (h : st.discard e = (Except.ok (), st')) :
    st' = { st with _removes := st._removes.addElem e } := by
  unfold discard at h
  cases hc : _check_element e with
  | error err => rw [hc] at h; cases h
  | ok u =>
      rw [hc] at h
      cases hr : st._require_context with
      | error err => rw [hr] at h; cases h
      | ok u2 => rw [hr] at h; exact (Prod.mk.injEq _ _ _ _ ▸ h).2.symm

/-- Sequence of `add` calls only: `_removes` is untouched. -/
theorem applyCalls_removes_of_only_adds (calls : List MutCall)
    (h : ∀ c ∈ calls, ∃ e, c = MutCall.addC e) :
    ∀ st : Set, (st.applyCalls calls)._removes = st._removes := by
  induction calls with
  | nil => intro st; rfl
  | cons c cs ih =>
      intro st
      rcases h c (List.mem_cons_self c cs) with ⟨e, rfl⟩
      rw [applyCalls_cons]
      rw [ih (fun c hc => h c (List.mem_cons_of_mem _ hc))]
      exact (add_frame st e).2.2

/-- Sequence of `discard` calls only: `_adds` is untouched. -/
theorem applyCalls_adds_of_only_discards (calls : List MutCall)
    (h : ∀ c ∈ calls, ∃ e, c = MutCall.discardC e) :
    ∀ st : Set, (st.applyCalls calls)._adds = st._adds := by
  induction calls with
  | nil => intro st; rfl
  | cons c cs ih =>
      intro st
      rcases h c (List.mem_cons_self c cs) with ⟨e, rfl⟩
      rw [applyCalls_cons]
      rw [ih (fun c hc => h c (List.mem_cons_of_mem _ hc))]
      exact (discard_frame st e).2.2

end Set

namespace Set

/-- C1: `to_op` returns the "no operation" sentinel `none` iff both staging
containers are empty; when a delta is returned, its `adds` key is present
iff `_adds` is non-empty, its `removes` key is present iff `_removes` is
non-empty, and a present key never holds an empty list. -/
theorem to_op_none_iff_empty_and_field_presence (st : Set) :
    (st.to_op = none ↔ (st._adds = [] ∧ st._removes = [])) ∧
    (∀ op : SetOp, st.to_op = some op →
      ((op.adds ≠ none ↔ st._adds ≠ []) ∧ (op.removes ≠ none ↔ st._removes ≠ []) ∧
       (∀ l, op.adds = some l → l ≠ []) ∧ (∀ l, op.removes = some l → l ≠ []))) := by
  refine ⟨to_op_eq_none_iff st, ?_⟩
  intro op hop
  rw [to_op_some_eq hop]
  refine ⟨?_, ?_, ?_, ?_⟩
  · by_cases ha : st._adds = [] <;> simp [List.isEmpty_iff, ha]
  · by_cases hr : st._removes = [] <;> simp [List.isEmpty_iff, hr]
  · by_cases ha : st._adds = [] <;> simp [List.isEmpty_iff, ha]
  · by_cases hr : st._removes = [] <;> simp [List.isEmpty_iff, hr]

/-- C2: discard of an element (elements are strings) on an instance whose
context is absent fails with ContextRequired and returns the instance's
state unchanged: no removal is staged. -/
theorem discard_without_context (st : Set) (x : String) (h : st.context = none) :
    st.discard (PyObj.pystr x) = (Except.error DtError.contextRequired, st) := by
  simp [discard, _check_element, PyObj.isStr, _require_context, h]

/-- Witness for C2: a fresh instance with no context, element "a". -/
theorem discard_without_context_witness :
    (Set.new [] none).discard (PyObj.pystr "a")
      = (Except.error DtError.contextRequired, Set.new [] none) :=
  discard_without_context (Set.new [] none) "a" rfl

/-- C3: add and discard of a non-string element both fail with the
InvalidElementType TypeError and return the state unchanged: the error is
raised before any staged mutation. -/
theorem add_discard_nonstring_rejected (st : Set) (e : PyObj) (h : e.isStr = false) :
    st.add e = (Except.error (DtError.invalidElementType _type_error_msg), st) ∧
    st.discard e = (Except.error (DtError.invalidElementType _type_error_msg), st) := by
  have hc := check_element_error h
  constructor
  · unfold add
    rw [hc]
  · unfold discard
    rw [hc]

/-- Witness for C3: a fresh instance, element the integer 5. -/
theorem add_discard_nonstring_rejected_witness :
    (Set.new [] none).add (PyObj.pyint 5)
        = (Except.error (DtError.invalidElementType _type_error_msg), Set.new [] none) ∧
    (Set.new [] none).discard (PyObj.pyint 5)
        = (Except.error (DtError.invalidElementType _type_error_msg), Set.new [] none) :=
  add_discard_nonstring_rejected (Set.new [] none) (PyObj.pyint 5) rfl

/-- C4: the read-only view (`contains`, `iter`, `length`) is a function of
the snapshot alone: any sequence of add/discard calls leaves all three
results unchanged. -/
theorem read_view_unchanged_by_staging (st : Set) (calls : List MutCall) (e : PyObj) :
    (st.applyCalls calls).contains e = st.contains e ∧
    (st.applyCalls calls).iter = st.iter ∧
    (st.applyCalls calls).length = st.length := by
  have hv : (st.applyCalls calls)._value = st._value := applyCalls_value calls st
  refine ⟨?_, ?_, ?_⟩ <;> simp [contains, iter, length, value, hv]

/-- C5: a returned delta's `adds` field holds exactly the elements of
`_adds` and its `removes` field exactly those of `_removes`; from a fresh
instance, after only add calls the delta has no `removes` field, and after
only discard calls (with a context present) no `adds` field. -/
theorem to_op_delta_exact (st : Set) (ctx : String) :
    (∀ op : SetOp, st.to_op = some op →
      ((∀ x, (∃ l, op.adds = some l ∧ x ∈ l) ↔ x ∈ st._adds) ∧
       (∀ x, (∃ l, op.removes = some l ∧ x ∈ l) ↔ x ∈ st._removes))) ∧
    (∀ calls : List MutCall, (∀ c ∈ calls, ∃ e, c = MutCall.addC e) →
      ∀ op : SetOp, ((Set.new [] none).applyCalls calls).to_op = some op →
        op.removes = none) ∧
    (∀ calls : List MutCall, (∀ c ∈ calls, ∃ e, c = MutCall.discardC e) →
      ∀ op : SetOp, ((Set.new [] (some ctx)).applyCalls calls).to_op = some op →
        op.adds = none) := by
  refine ⟨?_, ?_, ?_⟩
  · intro op hop
    rw [to_op_some_eq hop]
    constructor
    · intro x
      by_cases ha : st._adds = [] <;> simp [List.isEmpty_iff, ha]
    · intro x
      by_cases hr : st._removes = [] <;> simp [List.isEmpty_iff, hr]
  · intro calls honly op hop
    have hrem : ((Set.new [] none).applyCalls calls)._removes = [] :=
      applyCalls_removes_of_only_adds calls honly (Set.new [] none)
    rw [to_op_some_eq hop]
    simp [hrem]
  · intro calls honly op hop
    have hadds : ((Set.new [] (some ctx)).applyCalls calls)._adds = [] :=
      applyCalls_adds_of_only_discards calls honly (Set.new [] (some ctx))
    rw [to_op_some_eq hop]
    simp [hadds]

/-- C6: `modified` is true iff the union of the two staging containers is
non-empty (equivalently, one of them is non-empty), false on a freshly
constructed instance, and true after any successful add or discard. -/
theorem modified_iff_staged (st : Set) :
    (st.modified = true ↔ (st._adds ≠ [] ∨ st._removes ≠ [])) ∧
    (Set.new _default_value none).modified = false ∧
    (∀ e st', st.add e = (Except.ok (), st') → st'.modified = true) ∧
    (∀ e st', st.discard e = (Except.ok (), st') → st'.modified = true) := by
  have hiff : ∀ s : Set, s.modified = true ↔ (s._adds ≠ [] ∨ s._removes ≠ []) := by
    intro s
    simp only [modified, decide_eq_true_eq, PySet.union_length_pos_iff]
    exact or_comm
  refine ⟨hiff st, by decide, ?_, ?_⟩
  · intro e st' h
    rw [add_ok h]
    exact (hiff _).mpr (Or.inl (PySet.addElem_ne_nil _ _))
  · intro e st' h
    rw [discard_ok h]
    exact (hiff _).mpr (Or.inr (PySet.addElem_ne_nil _ _))

/-- C7: `_check_type` accepts a raw value iff it is iterable and every
element it yields is a string; `_coerce_value` turns a value into a
duplicate-free set holding exactly the value's elements. -/
theorem check_type_accepts_iff (v : PyObj) :
    (Set._check_type v = true ↔
      (v.isIterable = true ∧ ∀ x ∈ v.iterElems, x.isStr = true)) ∧
    (Set._check_type v = true →
      ((∀ x, x ∈ Set._coerce_value v ↔ x ∈ v.iterElems) ∧
       (Set._coerce_value v).Nodup)) := by
  constructor
  · unfold _check_type
    by_cases hi : v.isIterable = true
    · simp [hi, checkTypeLoop_eq_true]
    · simp [hi]
  · intro _
    refine ⟨?_, List.nodup_dedup _⟩
    intro x
    simp [_coerce_value, pyFrozenset, List.mem_dedup]

/-- Witness for C7: the list ["a"] is accepted, the integer 5 is not, and
coercion of ["a", "a"] is the duplicate-free set with member "a". -/
theorem check_type_accepts_iff_witness :
    Set._check_type (PyObj.pylist [PyScalar.pstr "a"]) = true ∧
    (∀ x, x ∈ Set._coerce_value (PyObj.pylist [PyScalar.pstr "a", PyScalar.pstr "a"]) ↔
      x ∈ (PyObj.pylist [PyScalar.pstr "a", PyScalar.pstr "a"]).iterElems) := by
  constructor
  · exact (check_type_accepts_iff (PyObj.pylist [PyScalar.pstr "a"])).1.mpr
      (by decide)
  · exact ((check_type_accepts_iff
      (PyObj.pylist [PyScalar.pstr "a", PyScalar.pstr "a"])).2 (by decide)).1

/-- C8: add is idempotent on the whole state: after a first `add x`, a
second `add x` returns the identical outcome and state, so in particular
the staged-adds membership is the same. -/
theorem add_idempotent (st : Set) (x : String) :
    ((st.add (PyObj.pystr x)).2).add (PyObj.pystr x) = st.add (PyObj.pystr x) := by
  have h1 : (st.add (PyObj.pystr x)).2
      = { st with _adds := st._adds.addElem (PyObj.pystr x) } := by
    rw [add_of_str]
  rw [h1, add_of_str, add_of_str]
  have h2 : (st._adds.addElem (PyObj.pystr x)).addElem (PyObj.pystr x)
      = st._adds.addElem (PyObj.pystr x) :=
    PySet.addElem_of_mem (PySet.mem_addElem_self _ _)
  simp [h2]

/-- C9: in discard the element-type check precedes the context check: a
non-string element on a contextless instance raises InvalidElementType,
not ContextRequired. -/
theorem discard_type_check_precedes_context (st : Set) (e : PyObj)
    (h1 : e.isStr = false) (_hctx : st.context = none) :
    st.discard e = (Except.error (DtError.invalidElementType _type_error_msg), st) ∧
    (st.discard e).1 ≠ Except.error DtError.contextRequired := by
  have hd : st.discard e
      = (Except.error (DtError.invalidElementType _type_error_msg), st) := by
    unfold discard
    rw [check_element_error h1]
  refine ⟨hd, ?_⟩
  rw [hd]
  simp

/-- Witness for C9: a fresh contextless instance, element the integer 5. -/
theorem discard_type_check_precedes_context_witness :
    (Set.new [] none).discard (PyObj.pyint 5)
        = (Except.error (DtError.invalidElementType _type_error_msg), Set.new [] none) ∧
    ((Set.new [] none).discard (PyObj.pyint 5)).1 ≠ Except.error DtError.contextRequired :=
  discard_type_check_precedes_context (Set.new [] none) (PyObj.pyint 5) rfl rfl

/-- C10: a bare string passes `_check_type` (its elements are one-character
strings), and `_coerce_value` yields exactly the set of its individual
characters, not the string as a single element. -/
theorem string_snapshot_is_charset (s : String) :
    Set._check_type (PyObj.pystr s) = true ∧
    (∀ x, x ∈ Set._coerce_value (PyObj.pystr s) ↔
      ∃ c ∈ s.data, x = PyObj.pystr (String.mk [c])) := by
  constructor
  · have hstep : Set._check_type (PyObj.pystr s)
        = Set.checkTypeLoop (PyObj.pystr s).iterElems := rfl
    rw [hstep, checkTypeLoop_eq_true]
    intro x hx
    simp only [PyObj.iterElems, List.mem_map] at hx
    rcases hx with ⟨c, _, rfl⟩
    rfl
  · intro x
    simp only [_coerce_value, pyFrozenset, List.mem_dedup, PyObj.iterElems,
      List.mem_map]
    constructor
    · rintro ⟨c, hc, rfl⟩
      exact ⟨c, hc, rfl⟩
    · rintro ⟨c, hc, rfl⟩
      exact ⟨c, hc, rfl⟩

end Set

end Aioriak
